import Mathlib

/-!
Verification of the data pipeline of `Streamlit_dash2.py`.

The pipeline (`load_data`) reads two CSV tables, left-merges the
substitution table with a three-column projection of the performance
table on the `Player` key, derives `Overperformance` as the elementwise
difference `Actual Impact - Predicted Impact`, normalizes the column
labels (`_` replaced by a space, then Python `str.title()`), and on any
exception reports an error and returns an empty frame.

Modelling choices:
* Python strings are lists of Unicode code points (`PyStr`); the case
  functions follow Python semantics restricted to the ASCII letters,
  which is all the column names use.
* pandas floats are modelled exactly as rationals; a missing value
  (`NaN`) is the distinguished `Value.na`.
* `pd.read_csv` is modelled by a `SourceFile` that is either a parsed
  table or a file that exists but does not parse; an absent file is
  `none`.  The `try/except FileNotFoundError/except Exception` shape of
  `load_data` is mirrored exactly, including the order of the two reads.
-/

/-- Python strings, as lists of Unicode code points. -/
abbrev PyStr := List Nat

/-- Code point of the underscore character. -/
def underscoreCp : Nat := 95

/-- Code point of the space character. -/
def spaceCp : Nat := 32

/-- A code point is cased (restricted to the ASCII letters, the only
cased characters occurring in this data). -/
def isCasedCp (n : Nat) : Bool := (65 ≤ n && n ≤ 90) || (97 ≤ n && n ≤ 122)

/-- Uppercase an ASCII code point, as Python `str.upper` does on ASCII. -/
def toUpperCp (n : Nat) : Nat := if 97 ≤ n && n ≤ 122 then n - 32 else n

/-- Lowercase an ASCII code point, as Python `str.lower` does on ASCII. -/
def toLowerCp (n : Nat) : Nat := if 65 ≤ n && n ≤ 90 then n + 32 else n

/-- Python `s.replace('_', ' ')`. -/
def replaceUnderscores (s : PyStr) : PyStr :=
  s.map (fun c => if c = underscoreCp then spaceCp else c)

/-- Worker for Python `str.title`: the Boolean records whether the
previous character was cased; a cased character after a non-cased one is
uppercased, a cased character after a cased one is lowercased. -/
def titleAux : Bool → PyStr → PyStr
  | _, [] => []
  | prevCased, c :: cs =>
    (if prevCased then toLowerCp c else toUpperCp c) :: titleAux (isCasedCp c) cs

/-- Python `str.title`. -/
def pyTitle (s : PyStr) : PyStr := titleAux false s

/-- The column-label normalization of line 72 of the source:
`.str.replace('_', ' ').str.title()`. -/
def normalizeCol (s : PyStr) : PyStr := pyTitle (replaceUnderscores s)

/-- A cell value of a pandas frame: a string, a (rational-modelled)
float, or the missing value `NaN`. -/
inductive Value where
  | str : PyStr → Value
  | num : ℚ → Value
  | na : Value
deriving DecidableEq, Repr

/-- A pandas data frame: a list of column labels and a list of rows. -/
structure DataFrame where
  cols : List PyStr
  rows : List (List Value)
deriving DecidableEq, Repr

/-- A data frame is well formed when every row has one cell per column. -/
def DataFrame.WF (df : DataFrame) : Prop :=
  ∀ r ∈ df.rows, r.length = df.cols.length

/-- `pd.DataFrame()`, the empty frame returned on the error paths. -/
def emptyDF : DataFrame := ⟨[], []⟩

/-- `df.empty` of pandas: true when either axis has length zero. -/
def DataFrame.isEmptyFrame (df : DataFrame) : Bool :=
  df.rows.isEmpty || df.cols.isEmpty

/-- Index of a column label (first occurrence), `none` when absent
(pandas raises `KeyError`). -/
def DataFrame.colIdx (df : DataFrame) (c : PyStr) : Option Nat :=
  df.cols.findIdx? (· == c)

/-- Indices of a list of column labels; `none` as soon as one label is
absent (pandas raises `KeyError`). -/
def DataFrame.colIdxs (df : DataFrame) : List PyStr → Option (List Nat)
  | [] => some []
  | c :: cs =>
    match df.colIdx c, df.colIdxs cs with
    | some i, some is => some (i :: is)
    | _, _ => none

/-- `df[[c1, ..., ck]]`: column projection; `none` models the `KeyError`
raised when a requested column is absent. -/
def DataFrame.project (df : DataFrame) (cs : List PyStr) : Option DataFrame :=
  match df.colIdxs cs with
  | none => none
  | some idxs =>
    some ⟨cs, df.rows.map (fun r => idxs.map (fun i => r.getD i Value.na))⟩

/-- The `_x` suffix pandas appends to overlapping left columns. -/
def sfxX : PyStr := [95, 120]

/-- The `_y` suffix pandas appends to overlapping right columns. -/
def sfxY : PyStr := [95, 121]

/-- `pd.merge(left, right, on=key, how='left')`.  The key column of the
right frame is dropped; overlapping non-key labels get the `_x`/`_y`
suffixes; every left row is kept, paired with each matching right row
(match = equality of the key cells), or padded with `NaN` when no right
row matches.  `none` models the `KeyError` when the key is missing. -/
def DataFrame.leftMergeOn (left right : DataFrame) (key : PyStr) : Option DataFrame := do
  let li ← left.colIdx key
  let ri ← right.colIdx key
  let lcols := left.cols.map
    (fun c => if !(c == key) && right.cols.contains c then c ++ sfxX else c)
  let rcols := (right.cols.filter (fun c => !(c == key))).map
    (fun c => if left.cols.contains c then c ++ sfxY else c)
  let rowsOut := left.rows.flatMap (fun r =>
    let ms := right.rows.filter (fun m => m.getD ri Value.na == r.getD li Value.na)
    if ms.isEmpty then [r ++ List.replicate rcols.length Value.na]
    else ms.map (fun m =>
      r ++ ((right.cols.zip m).filter (fun p => !(p.1 == key))).map Prod.snd))
  return ⟨lcols ++ rcols, rowsOut⟩

/-- `df[c]` as a series of cells; `none` models the `KeyError` when the
column is absent. -/
def DataFrame.getCol (df : DataFrame) (c : PyStr) : Option (List Value) := do
  let i ← df.colIdx c
  return df.rows.map (fun r => r.getD i Value.na)

/-- `df[c] = vs`: replace an existing column in place, or append a new
column at the end, as pandas column assignment does. -/
def DataFrame.setCol (df : DataFrame) (c : PyStr) (vs : List Value) : DataFrame :=
  match df.colIdx c with
  | some i => ⟨df.cols, (df.rows.zip vs).map (fun p => p.1.set i p.2)⟩
  | none => ⟨df.cols ++ [c], (df.rows.zip vs).map (fun p => p.1 ++ [p.2])⟩

/-- Subtraction of two cells.  `NaN` propagates; a string operand makes
pandas raise `TypeError`, modelled by `none`. -/
def vsub : Value → Value → Option Value
  | Value.num a, Value.num b => some (Value.num (a - b))
  | Value.num _, Value.na => some Value.na
  | Value.na, Value.num _ => some Value.na
  | Value.na, Value.na => some Value.na
  | _, _ => none

/-- Worker for the elementwise subtraction: subtract pairwise, raising
(`none`) as soon as one cell pair does. -/
def zipSubAux : List (Value × Value) → Option (List Value)
  | [] => some []
  | p :: ps =>
    match vsub p.1 p.2, zipSubAux ps with
    | some v, some vs => some (v :: vs)
    | _, _ => none

/-- Elementwise subtraction of two aligned series. -/
def seriesSub (xs ys : List Value) : Option (List Value) :=
  zipSubAux (xs.zip ys)

/-- Rename all column labels with the line-72 normalization. -/
def DataFrame.renameCols (df : DataFrame) : DataFrame :=
  ⟨df.cols.map normalizeCol, df.rows⟩

/-- The code points of `Player`. -/
def playerCol : PyStr := [80, 108, 97, 121, 101, 114]

/-- The code points of `Actual Impact`. -/
def actualImpactCol : PyStr := [65, 99, 116, 117, 97, 108, 32, 73, 109, 112, 97, 99, 116]

/-- The code points of `Predicted Impact`. -/
def predictedImpactCol : PyStr :=
  [80, 114, 101, 100, 105, 99, 116, 101, 100, 32, 73, 109, 112, 97, 99, 116]

/-- The code points of `Overperformance`. -/
def overperformanceCol : PyStr :=
  [79, 118, 101, 114, 112, 101, 114, 102, 111, 114, 109, 97, 110, 99, 101]

/-- A source file on disk: either it parses to a table, or it exists but
`pd.read_csv` raises a (non-`FileNotFoundError`) exception on it. -/
inductive SourceFile where
  | table : DataFrame → SourceFile
  | malformed : SourceFile
deriving DecidableEq, Repr

/-- The two failure reports of the pipeline: the dedicated
`FileNotFoundError` message and the generic `except Exception` message. -/
inductive Report where
  | sourceNotFound : Report
  | malformedSource : Report
deriving DecidableEq, Repr

/-- What `load_data` hands back: the error report surfaced through
`st.error`, if any, and the returned frame. -/
structure LoadResult where
  report : Option Report
  table : DataFrame
deriving DecidableEq, Repr

/-- Lines 59-72 of the source, up to but not including the column
renaming of line 72: the state of `merged_data` after the
`Overperformance` assignment. -/
def processPreRename (perf sub : DataFrame) : Option DataFrame := do
  let perfProj ← perf.project [playerCol, actualImpactCol, predictedImpactCol]
  let merged ← sub.leftMergeOn perfProj playerCol
  let actual ← merged.getCol actualImpactCol
  let predicted ← merged.getCol predictedImpactCol
  let over ← seriesSub actual predicted
  return merged.setCol overperformanceCol over

/-- Lines 59-72 of the source: merge, derive, then rename the columns.
`none` stands for any exception raised while processing. -/
def processTables (perf sub : DataFrame) : Option DataFrame :=
  (processPreRename perf sub).map DataFrame.renameCols

/-- `load_data`: read the performance file, then the substitution file,
process, and catch `FileNotFoundError` and generic exceptions, each with
its own report and an empty frame as the returned value. -/
def load_data (perfFile subFile : Option SourceFile) : LoadResult :=
  match perfFile with
  | none => ⟨some Report.sourceNotFound, emptyDF⟩
  | some SourceFile.malformed => ⟨some Report.malformedSource, emptyDF⟩
  | some (SourceFile.table perf) =>
    match subFile with
    | none => ⟨some Report.sourceNotFound, emptyDF⟩
    | some SourceFile.malformed => ⟨some Report.malformedSource, emptyDF⟩
    | some (SourceFile.table sub) =>
      match processTables perf sub with
      | none => ⟨some Report.malformedSource, emptyDF⟩
      | some df => ⟨none, df⟩

/-- The caller gate `if not data.empty:` of line 105: the dashboard body
is rendered only when the returned frame is non-empty. -/
def rendersDashboard (r : LoadResult) : Bool := !r.table.isEmptyFrame

/-- The emoji buckets of `get_fatigue_color`. -/
inductive FatigueColor where
  | red : FatigueColor
  | yellow : FatigueColor
  | green : FatigueColor
deriving DecidableEq, Repr

/-- `get_fatigue_color` of lines 84-91 of the source. -/
def get_fatigue_color (score : ℚ) : FatigueColor :=
  if score > 2 then FatigueColor.red
  else if score > 1 then FatigueColor.yellow
  else FatigueColor.green

/-- Lowercasing of a whole string, for stating case-insensitive
variation of player names. -/
def lowerStr (s : PyStr) : PyStr := s.map toLowerCp

/-- Strip leading and trailing spaces, for stating whitespace variation
of player names. -/
def stripStr (s : PyStr) : PyStr :=
  ((s.dropWhile (· == spaceCp)).reverse.dropWhile (· == spaceCp)).reverse

/-- Two distinct strings that differ only in letter case or only in
leading/trailing spaces. -/
def caseWsVariant (s t : PyStr) : Prop :=
  s ≠ t ∧ (lowerStr s = lowerStr t ∨ stripStr s = stripStr t)

/-! ### Derived-value helpers and witness tables -/

/-- A cell that arithmetic accepts: a float or `NaN` (anything else
makes the subtraction raise `TypeError`). -/
def isNumOrNa : Value → Bool
  | Value.str _ => false
  | _ => true

/-- Total version of the cell subtraction, meaningful on non-string
cells. -/
def subVal (a b : Value) : Value := (vsub a b).getD Value.na

/-- The performance row matching a key cell, if any (first match). -/
def lookupPerf (perfRows : List (List Value)) (ipl : Nat) (k : Value) :
    Option (List Value) :=
  perfRows.find? (fun m => m.getD ipl Value.na == k)

/-- The three cells a substitution row gains in the output: the two
impact cells and the derived `Overperformance` cell, all `NaN` when no
performance row matched. -/
def triCells (ia ipr : Nat) : Option (List Value) → List Value
  | none => [Value.na, Value.na, Value.na]
  | some m => [m.getD ia Value.na, m.getD ipr Value.na,
      subVal (m.getD ia Value.na) (m.getD ipr Value.na)]

/-- The two impact cells gained from a matching performance row, `NaN`
when there is none. -/
def pairCells (ia ipr : Nat) : Option (List Value) → List Value
  | none => [Value.na, Value.na]
  | some m => [m.getD ia Value.na, m.getD ipr Value.na]

/-- The code points of `Alice`. -/
def aliceStr : PyStr := [65, 108, 105, 99, 101]

/-- The code points of `alice` (lowercase variant). -/
def aliceLowerStr : PyStr := [97, 108, 105, 99, 101]

/-- The code points of `Bob`. -/
def bobStr : PyStr := [66, 111, 98]

/-- The code points of `Position`. -/
def positionCol : PyStr := [80, 111, 115, 105, 116, 105, 111, 110]

/-- The code points of `Extra`. -/
def extraCol : PyStr := [69, 120, 116, 114, 97]

/-- A small valid performance table: Alice with actual impact 2 and
predicted impact 1, plus an extra column the pipeline must drop. -/
def perfW : DataFrame :=
  ⟨[playerCol, actualImpactCol, predictedImpactCol, extraCol],
   [[Value.str aliceStr, Value.num 2, Value.num 1, Value.na]]⟩

/-- A small valid substitution table: Alice (matched) and Bob
(unmatched). -/
def subW : DataFrame :=
  ⟨[playerCol, positionCol],
   [[Value.str aliceStr, Value.str positionCol],
    [Value.str bobStr, Value.str positionCol]]⟩

/-- A performance table whose only player differs from `Alice` just by
letter case. -/
def perfW2 : DataFrame :=
  ⟨[playerCol, actualImpactCol, predictedImpactCol],
   [[Value.str aliceLowerStr, Value.num 2, Value.num 1]]⟩

/-- The frame `load_data` returns on the two witness tables. -/
def outW : DataFrame :=
  ⟨[playerCol, positionCol, actualImpactCol, predictedImpactCol,
      overperformanceCol],
   [[Value.str aliceStr, Value.str positionCol, Value.num 2, Value.num 1,
      Value.num (2 - 1)],
    [Value.str bobStr, Value.str positionCol, Value.na, Value.na, Value.na]]⟩

/-! ### Character-level lemmas for the column-name normalization -/

theorem toUpperCp_toUpperCp (n : Nat) : toUpperCp (toUpperCp n) = toUpperCp n := by
  simp only [toUpperCp, Bool.and_eq_true, decide_eq_true_eq]
  split_ifs <;> omega

theorem toLowerCp_toLowerCp (n : Nat) : toLowerCp (toLowerCp n) = toLowerCp n := by
  simp only [toLowerCp, Bool.and_eq_true, decide_eq_true_eq]
  split_ifs <;> omega

theorem isCasedCp_toUpperCp (n : Nat) : isCasedCp (toUpperCp n) = isCasedCp n := by
  simp only [toUpperCp, Bool.and_eq_true, decide_eq_true_eq]
  split_ifs with h
  · rw [Bool.eq_iff_iff]
    simp only [isCasedCp, Bool.or_eq_true, Bool.and_eq_true, decide_eq_true_eq]
    omega
  · rfl

theorem isCasedCp_toLowerCp (n : Nat) : isCasedCp (toLowerCp n) = isCasedCp n := by
  simp only [toLowerCp, Bool.and_eq_true, decide_eq_true_eq]
  split_ifs with h
  · rw [Bool.eq_iff_iff]
    simp only [isCasedCp, Bool.or_eq_true, Bool.and_eq_true, decide_eq_true_eq]
    omega
  · rfl

theorem toUpperCp_ne_underscore (n : Nat) (h : n ≠ underscoreCp) :
    toUpperCp n ≠ underscoreCp := by
  simp only [toUpperCp, underscoreCp, Bool.and_eq_true, decide_eq_true_eq] at *
  split_ifs <;> omega

theorem toLowerCp_ne_underscore (n : Nat) (h : n ≠ underscoreCp) :
    toLowerCp n ≠ underscoreCp := by
  simp only [toLowerCp, underscoreCp, Bool.and_eq_true, decide_eq_true_eq] at *
  split_ifs <;> omega

theorem titleAux_titleAux (s : PyStr) (b : Bool) :
    titleAux b (titleAux b s) = titleAux b s := by
  induction s generalizing b with
  | nil => rfl
  | cons c cs ih =>
    cases b <;>
      simp [titleAux, toUpperCp_toUpperCp, toLowerCp_toLowerCp,
        isCasedCp_toUpperCp, isCasedCp_toLowerCp, ih]

theorem mem_titleAux {c : Nat} {s : PyStr} {b : Bool} (h : c ∈ titleAux b s) :
    ∃ c0 ∈ s, c = toLowerCp c0 ∨ c = toUpperCp c0 := by
  induction s generalizing b with
  | nil => simp [titleAux] at h
  | cons d ds ih =>
    unfold titleAux at h
    rcases List.mem_cons.mp h with h1 | h2
    · refine ⟨d, List.mem_cons_self d ds, ?_⟩
      cases b <;> simp_all
    · obtain ⟨c0, hc0, hor⟩ := ih h2
      exact ⟨c0, List.mem_cons_of_mem d hc0, hor⟩

theorem mem_replaceUnderscores {c : Nat} {s : PyStr} (h : c ∈ replaceUnderscores s) :
    c ≠ underscoreCp := by
  unfold replaceUnderscores at h
  obtain ⟨c0, _, hc0⟩ := List.mem_map.mp h
  by_cases h95 : c0 = underscoreCp
  · simp only [h95, if_true] at hc0
    simp only [underscoreCp, spaceCp] at *
    omega
  · simp only [h95, if_false] at hc0
    exact hc0 ▸ h95

theorem replaceUnderscores_eq_self {s : PyStr} (h : ∀ c ∈ s, c ≠ underscoreCp) :
    replaceUnderscores s = s := by
  unfold replaceUnderscores
  calc s.map (fun c => if c = underscoreCp then spaceCp else c)
      = s.map id := List.map_congr_left (fun c hc => by simp [h c hc])
    _ = s := List.map_id s

/-- Claim C5: the column-name normalization of line 72 (replace `_` by a
space, then Python title-case) is idempotent: normalizing an
already-normalized column name returns it unchanged. -/
theorem normalizeCol_idempotent (s : PyStr) :
    normalizeCol (normalizeCol s) = normalizeCol s := by
  unfold normalizeCol pyTitle
  have hno : ∀ c ∈ titleAux false (replaceUnderscores s), c ≠ underscoreCp := by
    intro c hc
    obtain ⟨c0, hc0, hor⟩ := mem_titleAux hc
    have hc0ne := mem_replaceUnderscores hc0
    rcases hor with h | h
    · exact h ▸ toLowerCp_ne_underscore c0 hc0ne
    · exact h ▸ toUpperCp_ne_underscore c0 hc0ne
  rw [replaceUnderscores_eq_self hno, titleAux_titleAux]

/-! ### The fatigue-color bucketing -/

/-- Claim C10: `get_fatigue_color` is total on numeric scores and
partitions them with exclusive lower bounds: red exactly when the score
exceeds 2, yellow exactly when it exceeds 1 but not 2, green otherwise;
in particular a score of exactly 2 is yellow and a score of exactly 1 is
green. -/
theorem get_fatigue_color_partition (s : ℚ) :
    (get_fatigue_color s = FatigueColor.red ↔ 2 < s) ∧
    (get_fatigue_color s = FatigueColor.yellow ↔ 1 < s ∧ s ≤ 2) ∧
    (get_fatigue_color s = FatigueColor.green ↔ s ≤ 1) ∧
    get_fatigue_color 2 = FatigueColor.yellow ∧
    get_fatigue_color 1 = FatigueColor.green := by
  refine ⟨?_, ?_, ?_, by norm_num [get_fatigue_color], by norm_num [get_fatigue_color]⟩
  · unfold get_fatigue_color
    split_ifs with h1 h2
    · simp [h1]
    · simp
      linarith
    · simp
      linarith
  · unfold get_fatigue_color
    split_ifs with h1 h2
    · simp
      intro h3
      linarith
    · simp
      exact ⟨h2, le_of_not_lt h1⟩
    · simp
      intro h3
      exact absurd h3 h2
  · unfold get_fatigue_color
    split_ifs with h1 h2
    · simp
      linarith
    · simp
      linarith
    · simp
      linarith

/-! ### Error paths of `load_data` -/

theorem colIdx_eq_none_of_not_mem {df : DataFrame} {c : PyStr} (h : c ∉ df.cols) :
    df.colIdx c = none := by
  unfold DataFrame.colIdx
  rw [List.findIdx?_eq_none_iff]
  intro x hx
  exact beq_eq_false_iff_ne.mpr (fun he => h (he ▸ hx))

/-- If one of the projected columns is absent, the projection raises
(`none`). -/
theorem project_eq_none {df : DataFrame} {cs : List PyStr} {c : PyStr}
    (hc : c ∈ cs) (h : c ∉ df.cols) : df.project cs = none := by
  unfold DataFrame.project
  have hidx : df.colIdxs cs = none := by
    induction cs with
    | nil => simp at hc
    | cons d ds ih =>
      rcases List.mem_cons.mp hc with h1 | h2
      · subst h1
        unfold DataFrame.colIdxs
        rw [colIdx_eq_none_of_not_mem h]
      · unfold DataFrame.colIdxs
        rw [ih h2]
        cases df.colIdx d <;> rfl
  rw [hidx]

/-- Counterexample to claim C8 as stated: when the performance file
exists but is malformed and the substitution file does not exist, the
pipeline reports the generic failure (`MalformedSource`), not
`SourceNotFound`, because the performance file is read first and its
exception wins. -/
theorem load_data_missing_sub_masked_by_malformed_perf :
    load_data (some SourceFile.malformed) none =
      ⟨some Report.malformedSource, emptyDF⟩ ∧
    Report.malformedSource ≠ Report.sourceNotFound :=
  ⟨rfl, by decide⟩

/-- Claim C8 (amended): when a source file does not exist and every file
read before it exists and parses, the pipeline reports `SourceNotFound`
and returns only the empty sentinel frame (no columns, no rows), which
the caller's `data.empty` gate turns into the empty state instead of a
rendered dashboard. -/
theorem load_data_sourceNotFound :
    (∀ subFile : Option SourceFile,
      load_data none subFile = ⟨some Report.sourceNotFound, emptyDF⟩ ∧
      rendersDashboard (load_data none subFile) = false) ∧
    (∀ perf : DataFrame,
      load_data (some (SourceFile.table perf)) none =
        ⟨some Report.sourceNotFound, emptyDF⟩ ∧
      rendersDashboard (load_data (some (SourceFile.table perf)) none) = false) :=
  ⟨fun _ => ⟨rfl, rfl⟩, fun _ => ⟨rfl, rfl⟩⟩

/-- Counterexample to claim C9 as stated: a performance table that
exists but lacks the `Actual Impact` column is reported as
`SourceNotFound`, not `MalformedSource`, when the substitution file is
missing, because the reads happen before any column is checked. -/
theorem load_data_missing_column_masked_by_missing_file :
    load_data (some (SourceFile.table ⟨[playerCol], []⟩)) none =
      ⟨some Report.sourceNotFound, emptyDF⟩ ∧
    actualImpactCol ∉ DataFrame.cols ⟨[playerCol], []⟩ ∧
    Report.sourceNotFound ≠ Report.malformedSource := by
  refine ⟨rfl, ?_, by decide⟩
  decide

/-- Claim C9 (amended): when both source files exist and one of them
lacks a required column (`Player`, `Actual Impact` or `Predicted Impact`
for the performance table, `Player` for the substitution table), the
pipeline reports the distinct failure `MalformedSource` and returns only
the empty sentinel frame — no partial result. -/
theorem load_data_malformedSource (perf sub : DataFrame) :
    ((playerCol ∉ perf.cols ∨ actualImpactCol ∉ perf.cols ∨
        predictedImpactCol ∉ perf.cols) →
      ∀ subFile : SourceFile,
        load_data (some (SourceFile.table perf)) (some subFile) =
          ⟨some Report.malformedSource, emptyDF⟩) ∧
    (playerCol ∉ sub.cols →
      ∀ perfFile : SourceFile,
        load_data (some perfFile) (some (SourceFile.table sub)) =
          ⟨some Report.malformedSource, emptyDF⟩) := by
  constructor
  · intro hmiss subFile
    cases subFile with
    | malformed => rfl
    | table subdf =>
      have hproj : perf.project [playerCol, actualImpactCol, predictedImpactCol] = none := by
        rcases hmiss with h | h | h
        · exact project_eq_none (by simp) h
        · exact project_eq_none (by simp) h
        · exact project_eq_none (by simp) h
      unfold load_data processTables processPreRename
      simp [hproj]
  · intro hmiss perfFile
    cases perfFile with
    | malformed => rfl
    | table perfdf =>
      have hmerge : ∀ P : DataFrame, sub.leftMergeOn P playerCol = none := by
        intro P
        unfold DataFrame.leftMergeOn
        simp [colIdx_eq_none_of_not_mem hmiss]
      unfold load_data processTables processPreRename
      cases hproj : perfdf.project [playerCol, actualImpactCol, predictedImpactCol] with
      | none => simp [hproj]
      | some P => simp [hproj, hmerge P]

/-- Witness for the amended claim C9 at concrete inputs: a performance
table lacking `Actual Impact` and a substitution table lacking `Player`
are each reported as `MalformedSource`. -/
theorem load_data_malformedSource_witness :
    load_data (some (SourceFile.table ⟨[playerCol], []⟩))
        (some (SourceFile.table ⟨[playerCol], []⟩)) =
      ⟨some Report.malformedSource, emptyDF⟩ ∧
    load_data (some (SourceFile.table ⟨[playerCol], []⟩))
        (some (SourceFile.table ⟨[], []⟩)) =
      ⟨some Report.malformedSource, emptyDF⟩ :=
  ⟨(load_data_malformedSource ⟨[playerCol], []⟩ ⟨[playerCol], []⟩).1
      (Or.inr (Or.inl (by decide))) (SourceFile.table ⟨[playerCol], []⟩),
    (load_data_malformedSource ⟨[playerCol], []⟩ ⟨[], []⟩).2
      (by decide) (SourceFile.table ⟨[playerCol], []⟩)⟩

/-! ### Helpers for the pipeline characterization -/

theorem vsub_eq_some_subVal {a b : Value} (ha : isNumOrNa a = true)
    (hb : isNumOrNa b = true) : vsub a b = some (subVal a b) := by
  cases a <;> cases b <;> simp_all [isNumOrNa, vsub, subVal]

theorem zipSubAux_eq_some {l : List (Value × Value)}
    (h : ∀ p ∈ l, isNumOrNa p.1 = true ∧ isNumOrNa p.2 = true) :
    zipSubAux l = some (l.map (fun p => subVal p.1 p.2)) := by
  induction l with
  | nil => rfl
  | cons p ps ih =>
    have hp := h p (List.mem_cons_self p ps)
    have hps := ih (fun q hq => h q (List.mem_cons_of_mem p hq))
    unfold zipSubAux
    rw [vsub_eq_some_subVal hp.1 hp.2, hps]
    rfl

theorem contains_eq_false_of_not_mem {l : List PyStr} {c : PyStr} (h : c ∉ l) :
    l.contains c = false := by
  cases hc : l.contains c with
  | false => rfl
  | true => exact absurd (by simpa using hc) h

theorem isEmpty_map {α β : Type} (f : α → β) (l : List α) :
    (l.map f).isEmpty = l.isEmpty := by
  cases l <;> rfl

theorem getD_append_len {α : Type} (l1 l2 : List α) (d : α) (j : Nat) :
    (l1 ++ l2).getD (l1.length + j) d = l2.getD j d := by
  have hj : l1.length + j - l1.length = j := by omega
  rw [List.getD_eq_getElem?_getD, List.getElem?_append_right (by omega), hj,
    List.getD_eq_getElem?_getD]

theorem findIdx_beq_append_of_not_mem {C tail : List PyStr} {c : PyStr} (h : c ∉ C) :
    List.findIdx? (· == c) (C ++ tail) =
      (List.findIdx? (· == c) tail).map (· + C.length) := by
  rw [List.findIdx?_append]
  have hnone : List.findIdx? (· == c) C = none := by
    rw [List.findIdx?_eq_none_iff]
    intro x hx
    exact beq_eq_false_iff_ne.mpr (fun he => h (he ▸ hx))
  rw [hnone]
  rfl

theorem filter_key_eq_find_toList {α β : Type} [BEq β] [LawfulBEq β]
    (f : α → β) (k : β) {rows : List α} (hnd : (rows.map f).Nodup) :
    rows.filter (fun m => f m == k) = (rows.find? (fun m => f m == k)).toList := by
  induction rows with
  | nil => rfl
  | cons r rs ih =>
    simp only [List.map_cons, List.nodup_cons] at hnd
    by_cases hr : f r = k
    · have hbeq : (f r == k) = true := beq_iff_eq.mpr hr
      have hnil : rs.filter (fun m => f m == k) = [] := by
        rw [List.filter_eq_nil_iff]
        intro a ha hak
        exact hnd.1 (List.mem_map.mpr ⟨a, ha, by
          have := beq_iff_eq.mp hak
          rw [this, hr]⟩)
      simp [List.filter_cons, List.find?_cons, hbeq, hnil]
    · have hbeq : (f r == k) = false := beq_eq_false_iff_ne.mpr hr
      simp [List.filter_cons, List.find?_cons, hbeq, ih hnd.2]

theorem find_key_self {α β : Type} [BEq β] [LawfulBEq β]
    (f : α → β) {rows : List α} {m : α} (hnd : (rows.map f).Nodup)
    (hm : m ∈ rows) : rows.find? (fun x => f x == f m) = some m := by
  induction rows with
  | nil => simp at hm
  | cons r rs ih =>
    simp only [List.map_cons, List.nodup_cons] at hnd
    by_cases hr : f r = f m
    · have hrm : r = m := by
        rcases List.mem_cons.mp hm with h1 | h2
        · exact h1.symm
        · exact absurd (List.mem_map.mpr ⟨m, h2, hr.symm⟩) hnd.1
      simp [List.find?_cons, beq_iff_eq.mpr hr, hrm]
    · have hm2 : m ∈ rs := by
        rcases List.mem_cons.mp hm with h1 | h2
        · exact absurd (h1 ▸ rfl) hr
        · exact h2
      simp [List.find?_cons, beq_eq_false_iff_ne.mpr hr, ih hnd.2 hm2]

theorem flatMap_singleton_eq_map {α β : Type} (f : α → List β) (g : α → β)
    (l : List α) (h : ∀ x ∈ l, f x = [g x]) : l.flatMap f = l.map g := by
  induction l with
  | nil => rfl
  | cons x xs ih =>
    rw [List.flatMap_cons, h x (List.mem_cons_self x xs),
      ih (fun y hy => h y (List.mem_cons_of_mem x hy)), List.map_cons]
    rfl

theorem project_perf_eq {perf : DataFrame} {ipl ia ipr : Nat}
    (hipl : perf.colIdx playerCol = some ipl)
    (hia : perf.colIdx actualImpactCol = some ia)
    (hipr : perf.colIdx predictedImpactCol = some ipr) :
    perf.project [playerCol, actualImpactCol, predictedImpactCol] =
      some ⟨[playerCol, actualImpactCol, predictedImpactCol],
        perf.rows.map (fun m =>
          [m.getD ipl Value.na, m.getD ia Value.na, m.getD ipr Value.na])⟩ := by
  unfold DataFrame.project
  simp [DataFrame.colIdxs, hipl, hia, hipr]

theorem leftMergeOn_proj_eq {sub : DataFrame} {ls : Nat}
    (perfRows : List (List Value)) (ipl ia ipr : Nat)
    (hls : sub.colIdx playerCol = some ls)
    (hA : actualImpactCol ∉ sub.cols)
    (hPr : predictedImpactCol ∉ sub.cols) :
    DataFrame.leftMergeOn sub
        ⟨[playerCol, actualImpactCol, predictedImpactCol],
          perfRows.map (fun m =>
            [m.getD ipl Value.na, m.getD ia Value.na, m.getD ipr Value.na])⟩
        playerCol =
      some ⟨sub.cols ++ [actualImpactCol, predictedImpactCol],
        sub.rows.flatMap (fun r =>
          let ms := perfRows.filter
            (fun m => m.getD ipl Value.na == r.getD ls Value.na)
          if ms.isEmpty then [r ++ [Value.na, Value.na]]
          else ms.map (fun m =>
            r ++ [m.getD ia Value.na, m.getD ipr Value.na]))⟩ := by
  have hri : DataFrame.colIdx
      ⟨[playerCol, actualImpactCol, predictedImpactCol],
        perfRows.map (fun m =>
          [m.getD ipl Value.na, m.getD ia Value.na, m.getD ipr Value.na])⟩
      playerCol = some 0 := rfl
  have e1 : (playerCol == playerCol) = true := by decide
  have e2 : (actualImpactCol == playerCol) = false := by decide
  have e3 : (predictedImpactCol == playerCol) = false := by decide
  have hfil : ([playerCol, actualImpactCol, predictedImpactCol] : List PyStr).filter
      (fun c => !(c == playerCol)) = [actualImpactCol, predictedImpactCol] := by decide
  have hrc : (([playerCol, actualImpactCol, predictedImpactCol] : List PyStr).filter
        (fun c => !(c == playerCol))).map
      (fun c => if sub.cols.contains c then c ++ sfxY else c) =
      [actualImpactCol, predictedImpactCol] := by
    rw [hfil]
    simp [hA, hPr]
  have hlc : sub.cols.map
      (fun c => if !(c == playerCol) &&
          ([playerCol, actualImpactCol, predictedImpactCol] : List PyStr).contains c
        then c ++ sfxX else c) = sub.cols := by
    calc sub.cols.map _ = sub.cols.map id := by
          apply List.map_congr_left
          intro c hc
          by_cases hcp : c = playerCol
          · simp [hcp]
          · have hca : c ≠ actualImpactCol := fun he => hA (he ▸ hc)
            have hcpr : c ≠ predictedImpactCol := fun he => hPr (he ▸ hc)
            simp [beq_eq_false_iff_ne.mpr hcp, hcp, hca, hcpr]
      _ = sub.cols := List.map_id sub.cols
  unfold DataFrame.leftMergeOn
  rw [hls, hri]
  simp only [Option.bind_some]
  rw [hlc, hrc]
  refine congrArg some ?_
  refine congrArg (DataFrame.mk _) ?_
  refine congrArg (List.flatMap sub.rows) (funext fun r => ?_)
  rw [List.filter_map]
  simp only [Function.comp_def, List.getD_cons_zero, isEmpty_map, List.map_map,
    List.length_cons, List.length_nil]
  have hrep : List.replicate 2 Value.na = [Value.na, Value.na] := rfl
  rw [hrep]
  congr 1

theorem getCol_actual_eq {C : List PyStr} {R : List (List Value)}
    (hA : actualImpactCol ∉ C) :
    DataFrame.getCol ⟨C ++ [actualImpactCol, predictedImpactCol], R⟩
        actualImpactCol =
      some (R.map (fun row => row.getD C.length Value.na)) := by
  unfold DataFrame.getCol DataFrame.colIdx
  have h0 : List.findIdx? (· == actualImpactCol)
      ([actualImpactCol, predictedImpactCol] : List PyStr) = some 0 := rfl
  rw [show DataFrame.cols ⟨C ++ [actualImpactCol, predictedImpactCol], R⟩ =
      C ++ [actualImpactCol, predictedImpactCol] from rfl,
    findIdx_beq_append_of_not_mem hA, h0]
  simp

theorem getCol_predicted_eq {C : List PyStr} {R : List (List Value)}
    (hPr : predictedImpactCol ∉ C) :
    DataFrame.getCol ⟨C ++ [actualImpactCol, predictedImpactCol], R⟩
        predictedImpactCol =
      some (R.map (fun row => row.getD (C.length + 1) Value.na)) := by
  unfold DataFrame.getCol DataFrame.colIdx
  have h1 : List.findIdx? (· == predictedImpactCol)
      ([actualImpactCol, predictedImpactCol] : List PyStr) = some 1 := rfl
  rw [show DataFrame.cols ⟨C ++ [actualImpactCol, predictedImpactCol], R⟩ =
      C ++ [actualImpactCol, predictedImpactCol] from rfl,
    findIdx_beq_append_of_not_mem hPr, h1]
  simp [Nat.add_comm]

theorem setCol_over_eq {C : List PyStr} {R : List (List Value)} {vs : List Value}
    (hO : overperformanceCol ∉ C) :
    DataFrame.setCol ⟨C ++ [actualImpactCol, predictedImpactCol], R⟩
        overperformanceCol vs =
      ⟨(C ++ [actualImpactCol, predictedImpactCol]) ++ [overperformanceCol],
        (R.zip vs).map (fun p => p.1 ++ [p.2])⟩ := by
  unfold DataFrame.setCol DataFrame.colIdx
  have hnone : List.findIdx? (· == overperformanceCol)
      ([actualImpactCol, predictedImpactCol] : List PyStr) = none := rfl
  rw [show DataFrame.cols ⟨C ++ [actualImpactCol, predictedImpactCol], R⟩ =
      C ++ [actualImpactCol, predictedImpactCol] from rfl,
    findIdx_beq_append_of_not_mem hO, hnone]
  rfl

/-- Characterization of `merged_data` just before the column renaming:
columns are the substitution columns followed by the two impact columns
and `Overperformance`; each substitution row is extended, per matching
performance row (or `NaN`-padded when none matches), with the impact
cells and their difference. -/
theorem processPreRename_eq {perf sub : DataFrame} {ipl ia ipr ls : Nat}
    (hipl : perf.colIdx playerCol = some ipl)
    (hia : perf.colIdx actualImpactCol = some ia)
    (hipr : perf.colIdx predictedImpactCol = some ipr)
    (hls : sub.colIdx playerCol = some ls)
    (hA : actualImpactCol ∉ sub.cols)
    (hPr : predictedImpactCol ∉ sub.cols)
    (hO : overperformanceCol ∉ sub.cols)
    (hsubWF : sub.WF)
    (hnum : ∀ m ∈ perf.rows, isNumOrNa (m.getD ia Value.na) = true ∧
      isNumOrNa (m.getD ipr Value.na) = true) :
    processPreRename perf sub = some
      ⟨(sub.cols ++ [actualImpactCol, predictedImpactCol]) ++ [overperformanceCol],
        (sub.rows.flatMap (fun r =>
          let ms := perf.rows.filter
            (fun m => m.getD ipl Value.na == r.getD ls Value.na)
          if ms.isEmpty then [r ++ [Value.na, Value.na]]
          else ms.map (fun m =>
            r ++ [m.getD ia Value.na, m.getD ipr Value.na]))).map
          (fun row => row ++
            [subVal (row.getD sub.cols.length Value.na)
              (row.getD (sub.cols.length + 1) Value.na)])⟩ := by
  have hMR : ∀ row ∈ sub.rows.flatMap (fun r =>
      let ms := perf.rows.filter
        (fun m => m.getD ipl Value.na == r.getD ls Value.na)
      if ms.isEmpty then [r ++ [Value.na, Value.na]]
      else ms.map (fun m =>
        r ++ [m.getD ia Value.na, m.getD ipr Value.na])),
      isNumOrNa (row.getD sub.cols.length Value.na) = true ∧
      isNumOrNa (row.getD (sub.cols.length + 1) Value.na) = true := by
    intro row hrow
    obtain ⟨r, hr, hrow2⟩ := List.mem_flatMap.mp hrow
    have hrlen : sub.cols.length = r.length := (hsubWF r hr).symm
    have hget : ∀ t : List Value, (r ++ t).getD sub.cols.length Value.na =
        t.getD 0 Value.na := by
      intro t
      rw [hrlen, show r.length = r.length + 0 from rfl, getD_append_len]
    have hget1 : ∀ t : List Value, (r ++ t).getD (sub.cols.length + 1) Value.na =
        t.getD 1 Value.na := by
      intro t
      rw [hrlen, getD_append_len]
    by_cases hms : (perf.rows.filter
        (fun m => m.getD ipl Value.na == r.getD ls Value.na)).isEmpty
    · simp only [hms, if_true] at hrow2
      have : row = r ++ [Value.na, Value.na] := by
        simpa using hrow2
      subst this
      rw [hget, hget1]
      exact ⟨rfl, rfl⟩
    · simp only [hms, Bool.false_eq_true, if_false, List.mem_map] at hrow2
      obtain ⟨m, hm, hrow3⟩ := hrow2
      have hmperf : m ∈ perf.rows := (List.mem_filter.mp hm).1
      subst hrow3
      rw [hget, hget1]
      exact ⟨(hnum m hmperf).1, (hnum m hmperf).2⟩
  unfold processPreRename
  rw [project_perf_eq hipl hia hipr]
  simp only [Option.bind_eq_bind, Option.some_bind]
  rw [leftMergeOn_proj_eq perf.rows ipl ia ipr hls hA hPr]
  simp only [Option.bind_eq_bind, Option.some_bind]
  rw [getCol_actual_eq hA]
  simp only [Option.bind_eq_bind, Option.some_bind]
  rw [getCol_predicted_eq hPr]
  simp only [Option.bind_eq_bind, Option.some_bind]
  unfold seriesSub
  simp only [List.zip_map']
  rw [zipSubAux_eq_some (by
    intro p hp
    obtain ⟨row, hrow, hpe⟩ := List.mem_map.mp hp
    have := hMR row hrow
    rw [← hpe]
    exact this)]
  simp only [Option.bind_eq_bind, Option.some_bind]
  rw [setCol_over_eq hO]
  refine congrArg some ?_
  refine congrArg (DataFrame.mk _) ?_
  rw [List.map_map]
  have hzip : ∀ (L : List (List Value)) (h : List Value → Value),
      L.zip (L.map h) = L.map (fun row => (row, h row)) := by
    intro L h
    induction L with
    | nil => rfl
    | cons x xs ih => simp [ih]
  rw [hzip, List.map_map]
  rfl

/-- When `Player` is a unique key of the performance table, the frame
before renaming has exactly one row per substitution row: the row itself
followed by the three cells determined by its (unique) match. -/
theorem processPreRename_eq_of_nodup {perf sub : DataFrame} {ipl ia ipr ls : Nat}
    (hipl : perf.colIdx playerCol = some ipl)
    (hia : perf.colIdx actualImpactCol = some ia)
    (hipr : perf.colIdx predictedImpactCol = some ipr)
    (hls : sub.colIdx playerCol = some ls)
    (hA : actualImpactCol ∉ sub.cols)
    (hPr : predictedImpactCol ∉ sub.cols)
    (hO : overperformanceCol ∉ sub.cols)
    (hsubWF : sub.WF)
    (hnum : ∀ m ∈ perf.rows, isNumOrNa (m.getD ia Value.na) = true ∧
      isNumOrNa (m.getD ipr Value.na) = true)
    (hUniq : (perf.rows.map (fun m => m.getD ipl Value.na)).Nodup) :
    processPreRename perf sub = some
      ⟨(sub.cols ++ [actualImpactCol, predictedImpactCol]) ++ [overperformanceCol],
        sub.rows.map (fun r =>
          r ++ triCells ia ipr
            (lookupPerf perf.rows ipl (r.getD ls Value.na)))⟩ := by
  rw [processPreRename_eq hipl hia hipr hls hA hPr hO hsubWF hnum]
  refine congrArg some (congrArg (DataFrame.mk _) ?_)
  have hsing : ∀ r ∈ sub.rows,
      (let ms := perf.rows.filter
        (fun m => m.getD ipl Value.na == r.getD ls Value.na)
      if ms.isEmpty then [r ++ [Value.na, Value.na]]
      else ms.map (fun m =>
        r ++ [m.getD ia Value.na, m.getD ipr Value.na])) =
      [r ++ pairCells ia ipr (lookupPerf perf.rows ipl (r.getD ls Value.na))] := by
    intro r _
    have hfe := filter_key_eq_find_toList
      (fun m : List Value => m.getD ipl Value.na) (r.getD ls Value.na) hUniq
    simp only [hfe]
    unfold lookupPerf
    cases hfind : perf.rows.find?
        (fun m => m.getD ipl Value.na == r.getD ls Value.na) with
    | none => simp [pairCells]
    | some m => simp [pairCells]
  rw [flatMap_singleton_eq_map _
    (fun r => r ++ pairCells ia ipr (lookupPerf perf.rows ipl (r.getD ls Value.na)))
    _ hsing, List.map_map]
  apply List.map_congr_left
  intro r hr
  simp only [Function.comp_def]
  have hrlen : sub.cols.length = r.length := (hsubWF r hr).symm
  have hget : ∀ t : List Value, (r ++ t).getD sub.cols.length Value.na =
      t.getD 0 Value.na := by
    intro t
    rw [hrlen, show r.length = r.length + 0 from rfl, getD_append_len]
  have hget1 : ∀ t : List Value, (r ++ t).getD (sub.cols.length + 1) Value.na =
      t.getD 1 Value.na := by
    intro t
    rw [hrlen, getD_append_len]
  cases hl : lookupPerf perf.rows ipl (r.getD ls Value.na) with
  | none =>
    simp only [pairCells, triCells]
    rw [hget, hget1, List.append_assoc]
    rfl
  | some m =>
    simp only [pairCells, triCells]
    rw [hget, hget1, List.append_assoc]
    rfl

theorem load_data_table_eq {perf sub pre : DataFrame}
    (h : processPreRename perf sub = some pre) :
    load_data (some (SourceFile.table perf)) (some (SourceFile.table sub)) =
      ⟨none, pre.renameCols⟩ := by
  simp [load_data, processTables, h]

theorem normalizeCol_actualImpact : normalizeCol actualImpactCol = actualImpactCol := by
  decide

theorem normalizeCol_predictedImpact :
    normalizeCol predictedImpactCol = predictedImpactCol := by
  decide

theorem normalizeCol_overperformance :
    normalizeCol overperformanceCol = overperformanceCol := by
  decide

/-- Shared helper: under the validity hypotheses, the output of a
successful load is the renamed frame with one row per substitution row,
extended with the cells of its unique match. -/
theorem load_data_output_eq {perf sub : DataFrame} {ipl ia ipr ls : Nat}
    (hipl : perf.colIdx playerCol = some ipl)
    (hia : perf.colIdx actualImpactCol = some ia)
    (hipr : perf.colIdx predictedImpactCol = some ipr)
    (hls : sub.colIdx playerCol = some ls)
    (hA : actualImpactCol ∉ sub.cols)
    (hPr : predictedImpactCol ∉ sub.cols)
    (hO : overperformanceCol ∉ sub.cols)
    (hsubWF : sub.WF)
    (hnum : ∀ m ∈ perf.rows, isNumOrNa (m.getD ia Value.na) = true ∧
      isNumOrNa (m.getD ipr Value.na) = true)
    (hUniq : (perf.rows.map (fun m => m.getD ipl Value.na)).Nodup) :
    load_data (some (SourceFile.table perf)) (some (SourceFile.table sub)) =
      ⟨none,
        ⟨sub.cols.map normalizeCol ++
            [actualImpactCol, predictedImpactCol, overperformanceCol],
          sub.rows.map (fun r =>
            r ++ triCells ia ipr
              (lookupPerf perf.rows ipl (r.getD ls Value.na)))⟩⟩ := by
  rw [load_data_table_eq
    (processPreRename_eq_of_nodup hipl hia hipr hls hA hPr hO hsubWF hnum hUniq)]
  unfold DataFrame.renameCols
  simp only [List.map_append, List.map_cons, List.map_nil,
    normalizeCol_actualImpact, normalizeCol_predictedImpact,
    normalizeCol_overperformance, List.append_assoc]
  rfl

/-- Shared helper: the cell of the output row `i` at offset
`sub.cols.length + j` is the cell `j` of the three appended cells. -/
theorem output_row_cells (perf sub : DataFrame) (ipl ia ipr ls i j : Nat)
    (hsubWF : sub.WF) (hi : i < sub.rows.length) :
    ((sub.rows.map (fun r =>
        r ++ triCells ia ipr
          (lookupPerf perf.rows ipl (r.getD ls Value.na)))).getD i []).getD
        (sub.cols.length + j) Value.na =
      (triCells ia ipr
        (lookupPerf perf.rows ipl
          ((sub.rows.getD i []).getD ls Value.na))).getD j Value.na := by
  have hmi : i < (sub.rows.map (fun r =>
      r ++ triCells ia ipr
        (lookupPerf perf.rows ipl (r.getD ls Value.na)))).length := by
    rw [List.length_map]
    exact hi
  rw [List.getD_eq_getElem _ _ hmi, List.getElem_map,
    List.getD_eq_getElem _ _ hi]
  have hr : sub.rows[i] ∈ sub.rows := List.getElem_mem hi
  have hrlen : sub.cols.length = (sub.rows[i]).length := (hsubWF _ hr).symm
  rw [hrlen, getD_append_len]

/-- Shared helper: a substitution row whose key matches no performance
row gets `NaN` in all three appended cells. -/
theorem no_match_cells_na (perf sub : DataFrame) (ipl ia ipr ls i : Nat)
    (hsubWF : sub.WF) (hi : i < sub.rows.length)
    (hnomatch : ∀ m ∈ perf.rows,
      m.getD ipl Value.na ≠ (sub.rows.getD i []).getD ls Value.na) :
    ∀ j, ((sub.rows.map (fun r =>
        r ++ triCells ia ipr
          (lookupPerf perf.rows ipl (r.getD ls Value.na)))).getD i []).getD
        (sub.cols.length + j) Value.na = Value.na := by
  intro j
  rw [output_row_cells perf sub ipl ia ipr ls i j hsubWF hi]
  have hnone : lookupPerf perf.rows ipl
      ((sub.rows.getD i []).getD ls Value.na) = none := by
    unfold lookupPerf
    rw [List.find?_eq_none]
    intro m hm
    simp only [beq_iff_eq]
    exact hnomatch m hm
  rw [hnone]
  cases j with
  | zero => rfl
  | succ j1 =>
    cases j1 with
    | zero => rfl
    | succ j2 =>
      cases j2 <;> simp [triCells, List.getD]

/-- Claim C1: for valid source tables in which `Player` is a unique key
of the performance table, the output has exactly one row for every
substitution row — each output row extends the corresponding
substitution row — whether or not a performance row matches. -/
theorem load_data_left_join_complete (perf sub : DataFrame) (ipl ia ipr ls : Nat)
    (hipl : perf.colIdx playerCol = some ipl)
    (hia : perf.colIdx actualImpactCol = some ia)
    (hipr : perf.colIdx predictedImpactCol = some ipr)
    (hls : sub.colIdx playerCol = some ls)
    (hA : actualImpactCol ∉ sub.cols)
    (hPr : predictedImpactCol ∉ sub.cols)
    (hO : overperformanceCol ∉ sub.cols)
    (hsubWF : sub.WF)
    (hnum : ∀ m ∈ perf.rows, isNumOrNa (m.getD ia Value.na) = true ∧
      isNumOrNa (m.getD ipr Value.na) = true)
    (hUniq : (perf.rows.map (fun m => m.getD ipl Value.na)).Nodup) :
    ∃ out : DataFrame,
      load_data (some (SourceFile.table perf)) (some (SourceFile.table sub)) =
        ⟨none, out⟩ ∧
      out.rows.length = sub.rows.length ∧
      ∀ i, i < sub.rows.length →
        ∃ extra, out.rows.getD i [] = sub.rows.getD i [] ++ extra := by
  refine ⟨_, load_data_output_eq hipl hia hipr hls hA hPr hO hsubWF hnum hUniq,
    List.length_map _ _, ?_⟩
  intro i hi
  have hmi : i < (sub.rows.map (fun r =>
      r ++ triCells ia ipr
        (lookupPerf perf.rows ipl (r.getD ls Value.na)))).length := by
    rw [List.length_map]
    exact hi
  rw [List.getD_eq_getElem _ _ hmi, List.getElem_map, List.getD_eq_getElem _ _ hi]
  exact ⟨_, rfl⟩

/-- Claim C2: for an output row whose `Player` matches a performance
row with numeric impacts, the output carries those two impact cells and
an `Overperformance` cell equal to their exact difference. -/
theorem load_data_overperformance_matched (perf sub : DataFrame)
    (ipl ia ipr ls i : Nat) (m : List Value) {aq pq : ℚ}
    (hipl : perf.colIdx playerCol = some ipl)
    (hia : perf.colIdx actualImpactCol = some ia)
    (hipr : perf.colIdx predictedImpactCol = some ipr)
    (hls : sub.colIdx playerCol = some ls)
    (hA : actualImpactCol ∉ sub.cols)
    (hPr : predictedImpactCol ∉ sub.cols)
    (hO : overperformanceCol ∉ sub.cols)
    (hsubWF : sub.WF)
    (hnum : ∀ m ∈ perf.rows, isNumOrNa (m.getD ia Value.na) = true ∧
      isNumOrNa (m.getD ipr Value.na) = true)
    (hUniq : (perf.rows.map (fun m => m.getD ipl Value.na)).Nodup)
    (hi : i < sub.rows.length)
    (hm : m ∈ perf.rows)
    (hkey : m.getD ipl Value.na = (sub.rows.getD i []).getD ls Value.na)
    (hav : m.getD ia Value.na = Value.num aq)
    (hpv : m.getD ipr Value.na = Value.num pq) :
    ∃ out : DataFrame,
      load_data (some (SourceFile.table perf)) (some (SourceFile.table sub)) =
        ⟨none, out⟩ ∧
      (out.rows.getD i []).getD sub.cols.length Value.na = Value.num aq ∧
      (out.rows.getD i []).getD (sub.cols.length + 1) Value.na = Value.num pq ∧
      (out.rows.getD i []).getD (sub.cols.length + 2) Value.na =
        Value.num (aq - pq) := by
  refine ⟨_, load_data_output_eq hipl hia hipr hls hA hPr hO hsubWF hnum hUniq,
    ?_, ?_, ?_⟩
  all_goals
    have hfound : lookupPerf perf.rows ipl
        ((sub.rows.getD i []).getD ls Value.na) = some m := by
      unfold lookupPerf
      rw [← hkey]
      exact find_key_self (fun x : List Value => x.getD ipl Value.na) hUniq hm
  · have h0 := output_row_cells perf sub ipl ia ipr ls i 0 hsubWF hi
    rw [show sub.cols.length = sub.cols.length + 0 from rfl, h0, hfound]
    simp only [triCells, List.getD_cons_zero]
    exact hav
  · have h1 := output_row_cells perf sub ipl ia ipr ls i 1 hsubWF hi
    rw [h1, hfound]
    simp only [triCells, List.getD_cons_succ, List.getD_cons_zero]
    exact hpv
  · have h2 := output_row_cells perf sub ipl ia ipr ls i 2 hsubWF hi
    rw [h2, hfound]
    simp only [triCells, List.getD_cons_succ, List.getD_cons_zero]
    rw [hav, hpv]
    rfl

/-- Claim C3: for a substitution row whose `Player` matches no
performance row, the output row's `Actual Impact`, `Predicted Impact`
and `Overperformance` cells are all the missing value `NaN` — the load
still succeeds, and missingness propagates through the subtraction. -/
theorem load_data_unmatched_missing (perf sub : DataFrame)
    (ipl ia ipr ls i : Nat)
    (hipl : perf.colIdx playerCol = some ipl)
    (hia : perf.colIdx actualImpactCol = some ia)
    (hipr : perf.colIdx predictedImpactCol = some ipr)
    (hls : sub.colIdx playerCol = some ls)
    (hA : actualImpactCol ∉ sub.cols)
    (hPr : predictedImpactCol ∉ sub.cols)
    (hO : overperformanceCol ∉ sub.cols)
    (hsubWF : sub.WF)
    (hnum : ∀ m ∈ perf.rows, isNumOrNa (m.getD ia Value.na) = true ∧
      isNumOrNa (m.getD ipr Value.na) = true)
    (hUniq : (perf.rows.map (fun m => m.getD ipl Value.na)).Nodup)
    (hi : i < sub.rows.length)
    (hnomatch : ∀ m ∈ perf.rows,
      m.getD ipl Value.na ≠ (sub.rows.getD i []).getD ls Value.na) :
    ∃ out : DataFrame,
      load_data (some (SourceFile.table perf)) (some (SourceFile.table sub)) =
        ⟨none, out⟩ ∧
      (out.rows.getD i []).getD sub.cols.length Value.na = Value.na ∧
      (out.rows.getD i []).getD (sub.cols.length + 1) Value.na = Value.na ∧
      (out.rows.getD i []).getD (sub.cols.length + 2) Value.na = Value.na := by
  refine ⟨_, load_data_output_eq hipl hia hipr hls hA hPr hO hsubWF hnum hUniq,
    ?_, ?_, ?_⟩
  · have h0 := no_match_cells_na perf sub ipl ia ipr ls i hsubWF hi hnomatch 0
    rw [show sub.cols.length = sub.cols.length + 0 from rfl]
    exact h0
  · exact no_match_cells_na perf sub ipl ia ipr ls i hsubWF hi hnomatch 1
  · exact no_match_cells_na perf sub ipl ia ipr ls i hsubWF hi hnomatch 2

/-- Claim C6: the join compares `Player` cells by plain equality: a
performance row whose name differs from the substitution row's only in
letter case or in leading/trailing spaces does not match it, and when
every performance row is such a near-variant the substitution row comes
out with missing impact cells. -/
theorem load_data_join_exact_equality (perf sub : DataFrame)
    (ipl ia ipr ls i : Nat) (bp : PyStr)
    (hipl : perf.colIdx playerCol = some ipl)
    (hia : perf.colIdx actualImpactCol = some ia)
    (hipr : perf.colIdx predictedImpactCol = some ipr)
    (hls : sub.colIdx playerCol = some ls)
    (hA : actualImpactCol ∉ sub.cols)
    (hPr : predictedImpactCol ∉ sub.cols)
    (hO : overperformanceCol ∉ sub.cols)
    (hsubWF : sub.WF)
    (hnum : ∀ m ∈ perf.rows, isNumOrNa (m.getD ia Value.na) = true ∧
      isNumOrNa (m.getD ipr Value.na) = true)
    (hUniq : (perf.rows.map (fun m => m.getD ipl Value.na)).Nodup)
    (hi : i < sub.rows.length)
    (hbp : (sub.rows.getD i []).getD ls Value.na = Value.str bp)
    (hvar : ∀ m ∈ perf.rows, ∃ s, m.getD ipl Value.na = Value.str s ∧
      caseWsVariant s bp) :
    (∀ m ∈ perf.rows,
      (m.getD ipl Value.na == (sub.rows.getD i []).getD ls Value.na) = false) ∧
    ∃ out : DataFrame,
      load_data (some (SourceFile.table perf)) (some (SourceFile.table sub)) =
        ⟨none, out⟩ ∧
      (out.rows.getD i []).getD sub.cols.length Value.na = Value.na ∧
      (out.rows.getD i []).getD (sub.cols.length + 1) Value.na = Value.na ∧
      (out.rows.getD i []).getD (sub.cols.length + 2) Value.na = Value.na := by
  have hne : ∀ m ∈ perf.rows,
      m.getD ipl Value.na ≠ (sub.rows.getD i []).getD ls Value.na := by
    intro m hm
    obtain ⟨s, hs, hv⟩ := hvar m hm
    rw [hs, hbp]
    intro he
    exact hv.1 (Value.str.injEq s bp ▸ he)
  constructor
  · intro m hm
    exact beq_eq_false_iff_ne.mpr (hne m hm)
  refine ⟨_, load_data_output_eq hipl hia hipr hls hA hPr hO hsubWF hnum hUniq,
    ?_, ?_, ?_⟩
  · have h0 := no_match_cells_na perf sub ipl ia ipr ls i hsubWF hi hne 0
    rw [show sub.cols.length = sub.cols.length + 0 from rfl]
    exact h0
  · exact no_match_cells_na perf sub ipl ia ipr ls i hsubWF hi hne 1
  · exact no_match_cells_na perf sub ipl ia ipr ls i hsubWF hi hne 2

/-- Claim C7: the performance table is projected to exactly `Player`,
`Actual Impact`, `Predicted Impact` before the join, and the output's
column list is exactly the substitution columns (normalized) followed by
`Actual Impact`, `Predicted Impact` and `Overperformance` — no other
performance column survives. -/
theorem load_data_projection_and_columns (perf sub : DataFrame)
    (ipl ia ipr ls : Nat)
    (hipl : perf.colIdx playerCol = some ipl)
    (hia : perf.colIdx actualImpactCol = some ia)
    (hipr : perf.colIdx predictedImpactCol = some ipr)
    (hls : sub.colIdx playerCol = some ls)
    (hA : actualImpactCol ∉ sub.cols)
    (hPr : predictedImpactCol ∉ sub.cols)
    (hO : overperformanceCol ∉ sub.cols)
    (hsubWF : sub.WF)
    (hnum : ∀ m ∈ perf.rows, isNumOrNa (m.getD ia Value.na) = true ∧
      isNumOrNa (m.getD ipr Value.na) = true) :
    (∃ projRows, perf.project [playerCol, actualImpactCol, predictedImpactCol] =
      some ⟨[playerCol, actualImpactCol, predictedImpactCol], projRows⟩) ∧
    ∃ out : DataFrame, load_data
        (some (SourceFile.table perf)) (some (SourceFile.table sub)) =
      ⟨none, out⟩ ∧
      out.cols = sub.cols.map normalizeCol ++
        [actualImpactCol, predictedImpactCol, overperformanceCol] := by
  constructor
  · exact ⟨_, project_perf_eq hipl hia hipr⟩
  refine ⟨_,
    load_data_table_eq (processPreRename_eq hipl hia hipr hls hA hPr hO hsubWF hnum),
    ?_⟩
  unfold DataFrame.renameCols
  simp only [List.map_append, List.map_cons, List.map_nil,
    normalizeCol_actualImpact, normalizeCol_predictedImpact,
    normalizeCol_overperformance, List.append_assoc]
  rfl

/-- Claim C4: every column label of a successfully returned table is the
line-72 normalization (underscores to spaces, then title-case) of the
corresponding label of the frame as it stood before renaming, applied
uniformly to every column whatever its origin, and renaming touches no
row data. -/
theorem load_data_columns_normalized (perf sub out : DataFrame)
    (h : load_data (some (SourceFile.table perf)) (some (SourceFile.table sub)) =
      ⟨none, out⟩) :
    ∃ pre, processPreRename perf sub = some pre ∧
      out.cols = pre.cols.map normalizeCol ∧
      out.rows = pre.rows ∧
      ∀ i, out.cols.getD i [] = normalizeCol (pre.cols.getD i []) := by
  simp only [load_data] at h
  cases hp : processTables perf sub with
  | none =>
    rw [hp] at h
    simp at h
  | some df =>
    rw [hp] at h
    have hdf : df = out := by
      have := congrArg LoadResult.table h
      simpa using this
    subst hdf
    unfold processTables at hp
    cases hpre : processPreRename perf sub with
    | none =>
      rw [hpre] at hp
      simp at hp
    | some pre =>
      rw [hpre] at hp
      simp only [Option.map_some'] at hp
      obtain rfl := (Option.some.injEq _ _).mp hp
      refine ⟨pre, rfl, rfl, rfl, ?_⟩
      intro i
      exact List.getD_map pre.cols [] normalizeCol

theorem witness_c1 :
    ∃ out : DataFrame,
      load_data (some (SourceFile.table perfW)) (some (SourceFile.table subW)) =
        ⟨none, out⟩ ∧
      out.rows.length = subW.rows.length ∧
      ∀ i, i < subW.rows.length →
        ∃ extra, out.rows.getD i [] = subW.rows.getD i [] ++ extra :=
  load_data_left_join_complete perfW subW 0 1 2 0 (by decide) (by decide)
    (by decide) (by decide) (by decide) (by decide) (by decide)
    (by unfold DataFrame.WF; decide) (by decide) (by decide)

theorem witness_c2 :
    ∃ out : DataFrame,
      load_data (some (SourceFile.table perfW)) (some (SourceFile.table subW)) =
        ⟨none, out⟩ ∧
      (out.rows.getD 0 []).getD subW.cols.length Value.na = Value.num 2 ∧
      (out.rows.getD 0 []).getD (subW.cols.length + 1) Value.na = Value.num 1 ∧
      (out.rows.getD 0 []).getD (subW.cols.length + 2) Value.na =
        Value.num (2 - 1) :=
  load_data_overperformance_matched perfW subW 0 1 2 0 0
    [Value.str aliceStr, Value.num 2, Value.num 1, Value.na]
    (by decide) (by decide) (by decide) (by decide) (by decide) (by decide)
    (by decide) (by unfold DataFrame.WF; decide) (by decide) (by decide)
    (by decide) (by decide) (by decide) (by decide) (by decide)

theorem witness_c3 :
    ∃ out : DataFrame,
      load_data (some (SourceFile.table perfW)) (some (SourceFile.table subW)) =
        ⟨none, out⟩ ∧
      (out.rows.getD 1 []).getD subW.cols.length Value.na = Value.na ∧
      (out.rows.getD 1 []).getD (subW.cols.length + 1) Value.na = Value.na ∧
      (out.rows.getD 1 []).getD (subW.cols.length + 2) Value.na = Value.na :=
  load_data_unmatched_missing perfW subW 0 1 2 0 1
    (by decide) (by decide) (by decide) (by decide) (by decide) (by decide)
    (by decide) (by unfold DataFrame.WF; decide) (by decide) (by decide)
    (by decide) (by decide)

theorem witness_c6 :
    (∀ m ∈ perfW2.rows,
      (m.getD 0 Value.na == (subW.rows.getD 0 []).getD 0 Value.na) = false) ∧
    ∃ out : DataFrame,
      load_data (some (SourceFile.table perfW2)) (some (SourceFile.table subW)) =
        ⟨none, out⟩ ∧
      (out.rows.getD 0 []).getD subW.cols.length Value.na = Value.na ∧
      (out.rows.getD 0 []).getD (subW.cols.length + 1) Value.na = Value.na ∧
      (out.rows.getD 0 []).getD (subW.cols.length + 2) Value.na = Value.na :=
  load_data_join_exact_equality perfW2 subW 0 1 2 0 0 aliceStr
    (by decide) (by decide) (by decide) (by decide) (by decide) (by decide)
    (by decide) (by unfold DataFrame.WF; decide) (by decide) (by decide)
    (by decide) (by decide)
    (by
      intro m hm
      rw [show perfW2.rows =
        [[Value.str aliceLowerStr, Value.num 2, Value.num 1]] from rfl] at hm
      rw [List.mem_singleton.mp hm]
      exact ⟨aliceLowerStr, rfl, by decide, Or.inl (by decide)⟩)

theorem witness_c7 :
    (∃ projRows,
      perfW.project [playerCol, actualImpactCol, predictedImpactCol] =
        some ⟨[playerCol, actualImpactCol, predictedImpactCol], projRows⟩) ∧
    ∃ out : DataFrame,
      load_data (some (SourceFile.table perfW)) (some (SourceFile.table subW)) =
        ⟨none, out⟩ ∧
      out.cols = subW.cols.map normalizeCol ++
        [actualImpactCol, predictedImpactCol, overperformanceCol] :=
  load_data_projection_and_columns perfW subW 0 1 2 0
    (by decide) (by decide) (by decide) (by decide) (by decide) (by decide)
    (by decide) (by unfold DataFrame.WF; decide) (by decide)

theorem witness_c4 :
    ∃ pre, processPreRename perfW subW = some pre ∧
      outW.cols = pre.cols.map normalizeCol ∧
      outW.rows = pre.rows ∧
      ∀ i, outW.cols.getD i [] = normalizeCol (pre.cols.getD i []) :=
  load_data_columns_normalized perfW subW outW rfl
